import Mathlib

/-!
A shallow embedding of the FlaminUI CLI (`bin/flamin-ui.js`).

The CLI has two commands, `init` and `add`.  Both are straight-line
pipelines of filesystem, prompt, child-process and HTTP effects that
terminate the process on the first error.  We model:

* the filesystem as a finite association list from paths (relative to the
  working directory, joined with `/`) to file contents,
* the external world (`JSON.parse`, the interactive `prompts` answers,
  `execSync npm install`, `fetch`) as an `Env` of oracle functions,
* the observable effects as a trace of `Event`s, and
* process termination as an `Outcome` (normal return, `process.exit(code)`,
  or an uncaught exception).

Each JavaScript function of the source becomes one Lean definition of the
same name returning a `Result` (final filesystem, trace, outcome).
-/

namespace FlaminUI

/-- The filesystem: a finite map from paths to file contents,
as an association list (earliest binding wins). -/
abbrev FS := List (String × String)

/-- `fs.existsSync` / `fs.readFileSync` combined: the content stored at
path `p`, if any. -/
def fsLookup (fs : FS) (p : String) : Option String :=
  (fs.find? (fun e => e.1 == p)).map Prod.snd

/-- `fs.existsSync p`. -/
def fsExists (fs : FS) (p : String) : Bool :=
  (fsLookup fs p).isSome

/-- `fs.outputFileSync p c` / `fs.copySync src p`: (over)write path `p`
with content `c`. -/
def fsWrite (fs : FS) (p c : String) : FS :=
  (p, c) :: fs.filter (fun e => !(e.1 == p))

/-- The parsed shape of `package.json` that the CLI inspects:
its `dependencies` and `devDependencies` objects, each a JSON object
mapping package names to version strings.  A missing object is modelled
as the empty list (the source reads them with optional chaining
`packageJson.dependencies?.[dep]`). -/
structure Manifest where
  dependencies : List (String × String)
  devDependencies : List (String × String)

/-- JavaScript object property access `obj?.[k]`: the value of the first
entry with key `k`, if any. -/
def depLookup (m : List (String × String)) (k : String) : Option String :=
  (m.find? (fun e => e.1 == k)).map Prod.snd

/-- JavaScript truthiness of the value `obj?.[k]` evaluates to:
`undefined` (absent key) is falsy, and a string value is falsy exactly
when it is the empty string. -/
def jsTruthy : Option String → Bool
  | none => false
  | some s => !(s == "")

/-- The hard-coded `requiredDependencies` list of the source. -/
def requiredDependencies : List String :=
  ["framer-motion", "clsx", "tailwind-merge", "tw-merge"]

/-- `requiredDependencies.filter((dep) => !packageJson.dependencies?.[dep]
&& !packageJson.devDependencies?.[dep])`. -/
def missingDependencies (pkg : Manifest) : List String :=
  requiredDependencies.filter (fun dep =>
    !(jsTruthy (depLookup pkg.dependencies dep)) &&
    !(jsTruthy (depLookup pkg.devDependencies dep)))

/-- An observable effect of a command run (console output is not
modelled; prompts, child processes, HTTP requests, file writes and
directory creation are). -/
inductive Event where
  | prompt (message : String)
  | npmInstall (packages : List String)
  | httpGet (url : String)
  | writeFile (path : String) (content : String)
  | mkdir (path : String)
deriving Repr, DecidableEq

/-- How a command run ends: normal completion, `process.exit code`, or an
uncaught exception (which also terminates the Node process with a
non-zero exit status). -/
inductive Outcome where
  | success
  | exit (code : Nat)
  | exn
deriving Repr, DecidableEq

/-- The final filesystem, the trace of effects, and how the run ended. -/
structure Result where
  fs : FS
  events : List Event
  outcome : Outcome
deriving Repr, DecidableEq

/-- The external world the CLI interacts with.

* `parseJson` — `JSON.parse` restricted to the fields the CLI reads;
  `none` models a thrown `SyntaxError` (malformed JSON).
* `answer` — the interactive answer the user gives to a `prompts`
  confirmation with the given message; `none` models pressing enter,
  which makes `prompts` return the prompt's `initial` value.
* `npmOk` — whether `execSync("npm install " ++ ...)` succeeds.
* `http` — `fetch`: `some body` models an `ok` response with that text,
  `none` a non-success status or network failure (both reach the same
  `catch` block in the source).
* `utilSrc`, `cnSrc` — Modelled from the spec: the fixed textual content
  of the CLI package's bundled `src/util.ts` and `src/cn.ts`, which
  `copyUtilFile` / `copyCNFile` copy verbatim; these two files are not
  part of the provided sources, and the spec describes each generated
  file only as a (destination path, fixed textual content) pair. -/
structure Env where
  parseJson : String → Option Manifest
  answer : String → Option Bool
  npmOk : List String → Bool
  http : String → Option String
  utilSrc : String
  cnSrc : String

/-- The value a `prompts` confirmation yields: the user's answer if one
was typed, otherwise the prompt's `initial` default. -/
def promptAnswer (env : Env) (message : String) (initial : Bool) : Bool :=
  (env.answer message).getD initial

/-- The confirmation message `installDependencies` shows. -/
def installMessage (missing : List String) : String :=
  "The following dependencies are required and will be installed: " ++
    String.intercalate ", " missing ++ ". Proceed?"

/-- `installDependencies()` of the source: check `package.json` exists,
parse it, filter the required list down to the missing ones, and if any
are missing confirm (no `initial` given: `prompts` defaults to decline)
and run `npm install` with them. -/
def installDependencies (env : Env) (fs : FS) : Result :=
  if !(fsExists fs "package.json") then ⟨fs, [], .exit 1⟩
  else
    match env.parseJson ((fsLookup fs "package.json").getD "") with
    | none => ⟨fs, [], .exn⟩
    | some pkg =>
      let missing := missingDependencies pkg
      if missing.length > 0 then
        if !(promptAnswer env (installMessage missing) false) then
          ⟨fs, [.prompt (installMessage missing)], .exit 1⟩
        else if env.npmOk missing then
          ⟨fs, [.prompt (installMessage missing), .npmInstall missing], .success⟩
        else
          ⟨fs, [.prompt (installMessage missing), .npmInstall missing], .exit 1⟩
      else ⟨fs, [], .success⟩

/-- The template literal `tailwindConfigContent` of the source, verbatim
(it starts with a newline and ends with a newline and two spaces; literal
braces are written with `\x7b`/`\x7d` escapes). -/
def tailwindConfigContentRaw : String :=
  "\nimport type \x7b Config \x7d from \"tailwindcss\";\n\nconst config: Config = \x7b\n  content: [\n    \"./pages/**/*.\x7bjs,ts,jsx,tsx,mdx\x7d\",\n    \"./components/**/*.\x7bjs,ts,jsx,tsx,mdx\x7d\",\n    \"./app/**/*.\x7bjs,ts,jsx,tsx,mdx\x7d\",\n    \"./lib/components/**/*.\x7bjs,ts,jsx,tsx,mdx\x7d\",\n  ],\n  theme: \x7b\n    extend: \x7b\n      colors: \x7b\n        background: \"var(--background)\",\n        foreground: \"var(--foreground)\",\n      \x7d,\n    \x7d,\n  \x7d,\n  plugins: [],\n\x7d;\n\nexport default config;\n  "

/-- `tailwindConfigContent.trim()`: what `copyTailwindConfig` writes. -/
def tailwindConfigContent : String :=
  tailwindConfigContentRaw.trim

/-- `copyTailwindConfig()` of the source: unconditionally create or
overwrite `tailwind.config.ts` with the fixed content — note there is no
existence check and no prompt on this path. -/
def copyTailwindConfig (fs : FS) : Result :=
  ⟨fsWrite fs "tailwind.config.ts" tailwindConfigContent,
    [.writeFile "tailwind.config.ts" tailwindConfigContent], .success⟩

/-- The overwrite-confirmation message of `copyUtilFile`. -/
def utilOverwriteMessage : String :=
  "A util.ts file already exists. Do you want to overwrite it?"

/-- The overwrite-confirmation message of `copyCNFile`. -/
def cnOverwriteMessage : String :=
  "A cn.ts file already exists. Do you want to overwrite it?"

/-- `copyUtilFile()` of the source: if `lib/util.ts` exists, confirm
overwrite (`initial: false`, i.e. default decline) and return early on
decline; otherwise copy the bundled `util.ts` there. -/
def copyUtilFile (env : Env) (fs : FS) : Result :=
  if fsExists fs "lib/util.ts" then
    if !(promptAnswer env utilOverwriteMessage false) then
      ⟨fs, [.prompt utilOverwriteMessage], .success⟩
    else
      ⟨fsWrite fs "lib/util.ts" env.utilSrc,
        [.prompt utilOverwriteMessage, .writeFile "lib/util.ts" env.utilSrc],
        .success⟩
  else
    ⟨fsWrite fs "lib/util.ts" env.utilSrc,
      [.writeFile "lib/util.ts" env.utilSrc], .success⟩

/-- `copyCNFile()` of the source: like `copyUtilFile` but for
`utils/cn.ts`, with an explicit `ensureDirSync` of the parent directory
before the copy. -/
def copyCNFile (env : Env) (fs : FS) : Result :=
  if fsExists fs "utils/cn.ts" then
    if !(promptAnswer env cnOverwriteMessage false) then
      ⟨fs, [.prompt cnOverwriteMessage], .success⟩
    else
      ⟨fsWrite fs "utils/cn.ts" env.cnSrc,
        [.prompt cnOverwriteMessage, .mkdir "utils",
          .writeFile "utils/cn.ts" env.cnSrc], .success⟩
  else
    ⟨fsWrite fs "utils/cn.ts" env.cnSrc,
      [.mkdir "utils", .writeFile "utils/cn.ts" env.cnSrc], .success⟩

/-- Sequence two pipeline steps: if the first terminated the process
(`exit` or `exn`), the rest of the command body never runs. -/
def andThen (r : Result) (f : FS → Result) : Result :=
  match r.outcome with
  | .success =>
    let r2 := f r.fs
    ⟨r2.fs, r.events ++ r2.events, r2.outcome⟩
  | _ => r

/-- The `init` command action of the source: check `package.json`
exists, then run `installDependencies`, `copyUtilFile`, `copyCNFile`,
`copyTailwindConfig`, and finally `ensureDirSync("lib/components")`, in
that order. -/
def initCommand (env : Env) (fs : FS) : Result :=
  if !(fsExists fs "package.json") then ⟨fs, [], .exit 1⟩
  else
    andThen (installDependencies env fs) (fun fs1 =>
    andThen (copyUtilFile env fs1) (fun fs2 =>
    andThen (copyCNFile env fs2) (fun fs3 =>
    andThen (copyTailwindConfig fs3) (fun fs4 =>
      ⟨fs4, [.mkdir "lib/components"], .success⟩))))

/-- `path.join(process.cwd(), "lib", "components", component + ".tsx")`,
relative to the working directory. -/
def componentPath (component : String) : String :=
  "lib/components/" ++ component ++ ".tsx"

/-- The `componentUrl` template literal of the source: the component
name is interpolated twice, once as a directory and once as the file
name. -/
def componentUrl (component : String) : String :=
  "https://raw.githubusercontent.com/Vedant-Panchal/FlaminUI/refs/heads/main/lib/components/"
    ++ component ++ "/" ++ component ++ ".tsx"

/-- The `add <component>` command action of the source: fail if the
destination already exists, otherwise `fetch` the component URL; a
non-`ok` response throws, reaching the `catch` block which exits 1; on
success write the response body verbatim to the destination. -/
def addCommand (env : Env) (fs : FS) (component : String) : Result :=
  if fsExists fs (componentPath component) then ⟨fs, [], .exit 1⟩
  else
    match env.http (componentUrl component) with
    | none => ⟨fs, [.httpGet (componentUrl component)], .exit 1⟩
    | some body =>
      ⟨fsWrite fs (componentPath component) body,
        [.httpGet (componentUrl component),
          .writeFile (componentPath component) body], .success⟩

/-- Recognize HTTP request events in a trace. -/
def isHttpGet : Event → Bool
  | .httpGet _ => true
  | _ => false

/-- Recognize prompt events in a trace. -/
def isPrompt : Event → Bool
  | .prompt _ => true
  | _ => false

/-- Recognize file-write events in a trace. -/
def isWrite : Event → Bool
  | .writeFile _ _ => true
  | _ => false

/-! ### Basic facts about the filesystem model -/

theorem fsLookup_fsWrite_self (fs : FS) (p c : String) :
    fsLookup (fsWrite fs p c) p = some c := by
  simp [fsLookup, fsWrite]

theorem find?_filter_ne (fs : FS) (p q : String) (h : q ≠ p) :
    (fs.filter (fun e => !(e.1 == p))).find? (fun e => e.1 == q)
      = fs.find? (fun e => e.1 == q) := by
  induction fs with
  | nil => rfl
  | cons e t ih =>
    by_cases hp : e.1 = p
    · have hbq : (e.1 == q) = false :=
        beq_eq_false_iff_ne.mpr (by rw [hp]; exact Ne.symm h)
      have hbp : (e.1 == p) = true := beq_iff_eq.mpr hp
      simp [List.filter_cons, List.find?, hbp, hbq, ih]
    · have hbp : (e.1 == p) = false := beq_eq_false_iff_ne.mpr hp
      by_cases hq : e.1 = q
      · have hbq : (e.1 == q) = true := beq_iff_eq.mpr hq
        simp [List.filter_cons, List.find?, hbp, hbq]
      · have hbq : (e.1 == q) = false := beq_eq_false_iff_ne.mpr hq
        simp [List.filter_cons, List.find?, hbp, hbq, ih]

theorem fsLookup_fsWrite_ne (fs : FS) (p c q : String) (h : q ≠ p) :
    fsLookup (fsWrite fs p c) q = fsLookup fs q := by
  have hq : (p == q) = false := by
    simp
    exact fun hpq => h hpq.symm
  simp [fsLookup, fsWrite, List.find?, hq, find?_filter_ne _ _ _ h]

theorem fsExists_eq_false_iff (fs : FS) (p : String) :
    fsExists fs p = false ↔ fsLookup fs p = none := by
  simp [fsExists, Option.isSome]
  cases fsLookup fs p <;> simp

/-! ### Basic facts about manifest lookup -/

theorem depLookup_eq_none_iff (l : List (String × String)) (k : String) :
    depLookup l k = none ↔ k ∉ l.map Prod.fst := by
  constructor
  · intro h hk
    rcases List.mem_map.mp hk with ⟨e, he, hek⟩
    have hfind : l.find? (fun e => e.1 == k) = none := by
      cases hf : l.find? (fun e => e.1 == k) with
      | none => rfl
      | some a => simp [depLookup, hf] at h
    have := List.find?_eq_none.mp hfind e he
    simp [hek] at this
  · intro h
    have hfind : l.find? (fun e => e.1 == k) = none := by
      apply List.find?_eq_none.mpr
      intro e he hek
      exact h (List.mem_map.mpr ⟨e, he, by simpa using hek⟩)
    simp [depLookup, hfind]

theorem depLookup_eq_some (l : List (String × String)) (k v : String)
    (h : depLookup l k = some v) : (k, v) ∈ l := by
  simp only [depLookup, Option.map_eq_some'] at h
  obtain ⟨e, he, hv⟩ := h
  have hmem := List.mem_of_find?_eq_some he
  have hk' : e.1 = k := by
    have hk := List.find?_some he
    simpa using hk
  have : e = (k, v) := by
    cases e
    simp_all
  rwa [this] at hmem

theorem depLookup_of_mem (l : List (String × String)) (k v : String)
    (hnd : (l.map Prod.fst).Nodup) (h : (k, v) ∈ l) :
    depLookup l k = some v := by
  induction l with
  | nil => simp at h
  | cons e t ih =>
    simp only [List.map_cons, List.nodup_cons] at hnd
    rcases List.mem_cons.mp h with he | ht
    · simp [depLookup, List.find?, ← he]
    · have hk : e.1 ≠ k := by
        intro hek
        exact hnd.1 (hek ▸ (List.mem_map.mpr ⟨(k, v), ht, rfl⟩))
      have : (e.1 == k) = false := by simpa using hk
      simpa [depLookup, List.find?, this] using ih hnd.2 ht

theorem depLookup_perm (l₁ l₂ : List (String × String)) (hp : l₁.Perm l₂)
    (hnd : (l₁.map Prod.fst).Nodup) (k : String) :
    depLookup l₁ k = depLookup l₂ k := by
  have hnd₂ : (l₂.map Prod.fst).Nodup := ((hp.map Prod.fst).nodup_iff).mp hnd
  cases h1 : depLookup l₁ k with
  | none =>
    have hk : k ∉ l₂.map Prod.fst := by
      intro hk2
      exact (depLookup_eq_none_iff l₁ k).mp h1
        (((hp.map Prod.fst).mem_iff).mpr hk2)
    exact ((depLookup_eq_none_iff l₂ k).mpr hk).symm
  | some v =>
    exact ((depLookup_of_mem l₂ k v hnd₂ (hp.mem_iff.mp
      (depLookup_eq_some l₁ k v h1)))).symm

/-- When every declared version string is non-empty, the truthiness test
the source performs agrees with plain key membership. -/
theorem jsTruthy_depLookup_false_iff (l : List (String × String)) (k : String)
    (hv : ∀ e ∈ l, e.2 ≠ "") :
    jsTruthy (depLookup l k) = false ↔ k ∉ l.map Prod.fst := by
  cases hd : depLookup l k with
  | none =>
    simp [jsTruthy, (depLookup_eq_none_iff l k).mp hd]
  | some v =>
    have hmem := depLookup_eq_some l k v hd
    have hne : v ≠ "" := hv (k, v) hmem
    constructor
    · intro ht
      exfalso
      simp [jsTruthy] at ht
      exact hne ht
    · intro hk
      exact absurd (List.mem_map.mpr ⟨(k, v), hmem, rfl⟩) hk

/-! ### Stepping lemmas for the `init` pipeline -/

theorem installDependencies_noop (env : Env) (fs : FS) (pkg : Manifest)
    (h1 : fsExists fs "package.json" = true)
    (h2 : env.parseJson ((fsLookup fs "package.json").getD "") = some pkg)
    (h3 : missingDependencies pkg = []) :
    installDependencies env fs = ⟨fs, [], .success⟩ := by
  simp [installDependencies, h1, h2, h3]

theorem copyUtilFile_skip (env : Env) (fs : FS)
    (h : fsExists fs "lib/util.ts" = true)
    (ha : (env.answer utilOverwriteMessage).getD false = false) :
    copyUtilFile env fs = ⟨fs, [.prompt utilOverwriteMessage], .success⟩ := by
  simp [copyUtilFile, h, promptAnswer, ha]

theorem copyUtilFile_fresh (env : Env) (fs : FS)
    (h : fsExists fs "lib/util.ts" = false) :
    copyUtilFile env fs = ⟨fsWrite fs "lib/util.ts" env.utilSrc,
      [.writeFile "lib/util.ts" env.utilSrc], .success⟩ := by
  simp [copyUtilFile, h]

theorem copyCNFile_skip (env : Env) (fs : FS)
    (h : fsExists fs "utils/cn.ts" = true)
    (ha : (env.answer cnOverwriteMessage).getD false = false) :
    copyCNFile env fs = ⟨fs, [.prompt cnOverwriteMessage], .success⟩ := by
  simp [copyCNFile, h, promptAnswer, ha]

theorem copyCNFile_fresh (env : Env) (fs : FS)
    (h : fsExists fs "utils/cn.ts" = false) :
    copyCNFile env fs = ⟨fsWrite fs "utils/cn.ts" env.cnSrc,
      [.mkdir "utils", .writeFile "utils/cn.ts" env.cnSrc], .success⟩ := by
  simp [copyCNFile, h]

/-- A second `init` run over a project that already has all three
artifacts, declining both overwrite confirmations: only
`tailwind.config.ts` is (re)written. -/
theorem initCommand_skip_eq (env : Env) (fs : FS) (pkg : Manifest)
    (h1 : fsExists fs "package.json" = true)
    (h2 : env.parseJson ((fsLookup fs "package.json").getD "") = some pkg)
    (h3 : missingDependencies pkg = [])
    (hu : fsExists fs "lib/util.ts" = true)
    (hau : (env.answer utilOverwriteMessage).getD false = false)
    (hc : fsExists fs "utils/cn.ts" = true)
    (hac : (env.answer cnOverwriteMessage).getD false = false) :
    initCommand env fs =
      ⟨fsWrite fs "tailwind.config.ts" tailwindConfigContent,
        [.prompt utilOverwriteMessage, .prompt cnOverwriteMessage,
          .writeFile "tailwind.config.ts" tailwindConfigContent,
          .mkdir "lib/components"], .success⟩ := by
  simp [initCommand, h1, andThen,
    installDependencies_noop env fs pkg h1 h2 h3,
    copyUtilFile_skip env fs hu hau,
    copyCNFile_skip env fs hc hac,
    copyTailwindConfig]

/-- A first `init` run over a project with none of the three artifacts:
all three are written. -/
theorem initCommand_fresh_eq (env : Env) (fs : FS) (pkg : Manifest)
    (h1 : fsExists fs "package.json" = true)
    (h2 : env.parseJson ((fsLookup fs "package.json").getD "") = some pkg)
    (h3 : missingDependencies pkg = [])
    (hu : fsExists fs "lib/util.ts" = false)
    (hc : fsExists fs "utils/cn.ts" = false) :
    initCommand env fs =
      ⟨fsWrite (fsWrite (fsWrite fs "lib/util.ts" env.utilSrc)
          "utils/cn.ts" env.cnSrc) "tailwind.config.ts" tailwindConfigContent,
        [.writeFile "lib/util.ts" env.utilSrc, .mkdir "utils",
          .writeFile "utils/cn.ts" env.cnSrc,
          .writeFile "tailwind.config.ts" tailwindConfigContent,
          .mkdir "lib/components"], .success⟩ := by
  have hc' : fsExists (fsWrite fs "lib/util.ts" env.utilSrc) "utils/cn.ts" = false := by
    rw [fsExists_eq_false_iff] at hc ⊢
    rw [fsLookup_fsWrite_ne fs _ _ _ (by decide)]
    exact hc
  simp [initCommand, h1, andThen,
    installDependencies_noop env fs pkg h1 h2 h3,
    copyUtilFile_fresh env fs hu,
    copyCNFile_fresh env _ hc',
    copyTailwindConfig]

/-! ### Concrete instances used to instantiate the theorems -/

/-- A manifest that declares every required dependency with a non-empty
version string. -/
def sampleManifest : Manifest :=
  ⟨[("framer-motion", "^11.0.0"), ("clsx", "^2.1.0"),
    ("tailwind-merge", "^2.2.0"), ("tw-merge", "^1.0.0")], []⟩

/-- An environment whose manifest parse succeeds with every required
dependency declared, whose user presses enter at every confirmation, and
whose HTTP endpoint answers success with body `BODY`. -/
def sampleEnv : Env where
  parseJson := fun _ => some sampleManifest
  answer := fun _ => none
  npmOk := fun _ => true
  http := fun _ => some "BODY"
  utilSrc := "UTIL"
  cnSrc := "CN"

/-- Like `sampleEnv`, but every HTTP request fails (non-success status
or network error). -/
def sampleEnvErr : Env where
  parseJson := fun _ => some sampleManifest
  answer := fun _ => none
  npmOk := fun _ => true
  http := fun _ => none
  utilSrc := "UTIL"
  cnSrc := "CN"

/-- Like `sampleEnv`, but the manifest content is malformed JSON:
`JSON.parse` throws. -/
def sampleEnvBadJson : Env where
  parseJson := fun _ => none
  answer := fun _ => none
  npmOk := fun _ => true
  http := fun _ => some "BODY"
  utilSrc := "UTIL"
  cnSrc := "CN"

/-! ### The claims -/

/-- Claim C3: for every component name `X`, running `add X` when the
destination file `lib/components/X.tsx` already exists terminates with a
non-zero exit code and performs no HTTP request (the run is
`process.exit(1)` with an empty effect trace and an unchanged
filesystem). -/
theorem add_existing_exits_without_fetch (env : Env) (fs : FS) (c : String)
    (h : fsExists fs (componentPath c) = true) :
    addCommand env fs c = ⟨fs, [], .exit 1⟩ := by
  simp [addCommand, h]

theorem add_existing_exits_without_fetch_witness :
    addCommand sampleEnv [("lib/components/button.tsx", "x")] "button" =
      ⟨[("lib/components/button.tsx", "x")], [], .exit 1⟩ :=
  add_existing_exits_without_fetch sampleEnv
    [("lib/components/button.tsx", "x")] "button" (by decide)

/-- Claim C4: for every component name whose destination file does not
exist, running `add` against an HTTP endpoint that answers with a
non-success status terminates with a non-zero exit code and leaves no
file at the destination path (the filesystem is returned unchanged, and
the destination is still absent). -/
theorem add_http_error_leaves_no_file (env : Env) (fs : FS) (c : String)
    (h1 : fsExists fs (componentPath c) = false)
    (h2 : env.http (componentUrl c) = none) :
    addCommand env fs c = ⟨fs, [.httpGet (componentUrl c)], .exit 1⟩ ∧
    fsLookup (addCommand env fs c).fs (componentPath c) = none := by
  have hrun : addCommand env fs c = ⟨fs, [.httpGet (componentUrl c)], .exit 1⟩ := by
    simp [addCommand, h1, h2]
  exact ⟨hrun, by rw [hrun]; exact (fsExists_eq_false_iff fs _).mp h1⟩

theorem add_http_error_leaves_no_file_witness :
    addCommand sampleEnvErr [] "button" =
      ⟨[], [.httpGet (componentUrl "button")], .exit 1⟩ ∧
    fsLookup (addCommand sampleEnvErr [] "button").fs (componentPath "button") = none :=
  add_http_error_leaves_no_file sampleEnvErr [] "button" rfl rfl

/-- Claim C5: for every component name whose destination file does not
exist, running `add` against an HTTP endpoint that answers success with
body `B` succeeds and results in exactly one new file at
`lib/components/<name>.tsx` whose content is exactly `B` (every other
path is untouched; no local transformation is applied). -/
theorem add_success_writes_body_verbatim (env : Env) (fs : FS) (c B : String)
    (h1 : fsExists fs (componentPath c) = false)
    (h2 : env.http (componentUrl c) = some B) :
    (addCommand env fs c).outcome = .success ∧
    fsLookup fs (componentPath c) = none ∧
    fsLookup (addCommand env fs c).fs (componentPath c) = some B ∧
    ∀ q, q ≠ componentPath c →
      fsLookup (addCommand env fs c).fs q = fsLookup fs q := by
  have hrun : addCommand env fs c =
      ⟨fsWrite fs (componentPath c) B,
        [.httpGet (componentUrl c), .writeFile (componentPath c) B],
        .success⟩ := by
    simp [addCommand, h1, h2]
  refine ⟨by rw [hrun], (fsExists_eq_false_iff fs _).mp h1, ?_, ?_⟩
  · rw [hrun]
    exact fsLookup_fsWrite_self fs _ B
  · intro q hq
    rw [hrun]
    exact fsLookup_fsWrite_ne fs _ B q hq

theorem add_success_writes_body_verbatim_witness :
    (addCommand sampleEnv [] "button").outcome = .success ∧
    fsLookup ([] : FS) (componentPath "button") = none ∧
    fsLookup (addCommand sampleEnv [] "button").fs (componentPath "button") =
      some "BODY" ∧
    ∀ q, q ≠ componentPath "button" →
      fsLookup (addCommand sampleEnv [] "button").fs q = fsLookup ([] : FS) q :=
  add_success_writes_body_verbatim sampleEnv [] "button" "BODY" rfl rfl

/-- Claim C6: running `init` in a working directory where `package.json`
is absent terminates with a non-zero exit code having written no files
and recorded no effects at all. -/
theorem init_without_manifest_writes_nothing (env : Env) (fs : FS)
    (h : fsExists fs "package.json" = false) :
    initCommand env fs = ⟨fs, [], .exit 1⟩ := by
  simp [initCommand, h]

theorem init_without_manifest_writes_nothing_witness :
    initCommand sampleEnv [] = ⟨[], [], .exit 1⟩ :=
  init_without_manifest_writes_nothing sampleEnv [] rfl

/-- Claim C10: if `package.json` exists but its content is not valid
JSON, `init` dies with an uncaught parse exception (hence a non-zero
process exit) before any prompt, any package-manager invocation, and any
file write: the effect trace is empty and the filesystem unchanged. -/
theorem init_malformed_manifest_uncaught_exn (env : Env) (fs : FS)
    (h1 : fsExists fs "package.json" = true)
    (h2 : env.parseJson ((fsLookup fs "package.json").getD "") = none) :
    initCommand env fs = ⟨fs, [], .exn⟩ := by
  simp [initCommand, h1, installDependencies, h2, andThen]

theorem init_malformed_manifest_uncaught_exn_witness :
    initCommand sampleEnvBadJson [("package.json", "not json")] =
      ⟨[("package.json", "not json")], [], .exn⟩ :=
  init_malformed_manifest_uncaught_exn sampleEnvBadJson
    [("package.json", "not json")] rfl rfl

/-- Claim C2 counterexample: the source tests JavaScript truthiness of
the declared version value, not key membership.  A manifest declaring
`clsx` with the empty-string version has `clsx` as a key of its runtime
dependency map, yet `clsx` is reported missing. -/
theorem missing_dependency_truthiness_counterexample :
    "clsx" ∈ missingDependencies ⟨[("clsx", "")], []⟩ ∧
    "clsx" ∈ (Manifest.dependencies ⟨[("clsx", "")], []⟩).map Prod.fst := by
  decide

/-- Claim C2 (amended): provided every declared version value is a
non-empty string (so that JavaScript truthiness agrees with key
membership), a required dependency is reported missing iff its name is a
key of neither the runtime nor the development dependency map; and when
the missing set is empty, `installDependencies` performs no
package-manager invocation and no prompt, and reports success. -/
theorem missing_iff_not_declared (env : Env) (fs : FS) (pkg : Manifest)
    (dep : String)
    (hv1 : ∀ e ∈ pkg.dependencies, e.2 ≠ "")
    (hv2 : ∀ e ∈ pkg.devDependencies, e.2 ≠ "")
    (h1 : fsExists fs "package.json" = true)
    (h2 : env.parseJson ((fsLookup fs "package.json").getD "") = some pkg) :
    (dep ∈ missingDependencies pkg ↔
      dep ∈ requiredDependencies ∧
      dep ∉ pkg.dependencies.map Prod.fst ∧
      dep ∉ pkg.devDependencies.map Prod.fst) ∧
    (missingDependencies pkg = [] →
      installDependencies env fs = ⟨fs, [], .success⟩) := by
  constructor
  · rw [missingDependencies, List.mem_filter]
    simp only [Bool.and_eq_true, Bool.not_eq_true']
    rw [jsTruthy_depLookup_false_iff _ _ hv1,
      jsTruthy_depLookup_false_iff _ _ hv2]
  · intro h3
    exact installDependencies_noop env fs pkg h1 h2 h3

theorem missing_iff_not_declared_witness :
    ("clsx" ∈ missingDependencies sampleManifest ↔
      "clsx" ∈ requiredDependencies ∧
      "clsx" ∉ sampleManifest.dependencies.map Prod.fst ∧
      "clsx" ∉ sampleManifest.devDependencies.map Prod.fst) ∧
    (missingDependencies sampleManifest = [] →
      installDependencies sampleEnv [("package.json", "pkg")] =
        ⟨[("package.json", "pkg")], [], .success⟩) :=
  missing_iff_not_declared sampleEnv [("package.json", "pkg")] sampleManifest
    "clsx" (by decide) (by decide) rfl rfl

/-- Claim C8: the missing-dependency computation depends only on which
name–version pairs the manifest declares, not on their order: permuting
the entries of either dependency map (whose keys, as JSON object keys,
are distinct) leaves the missing list unchanged. -/
theorem missingDependencies_order_invariant (d₁ d₂ v₁ v₂ : List (String × String))
    (hd : d₁.Perm d₂) (hv : v₁.Perm v₂)
    (hnd : (d₁.map Prod.fst).Nodup) (hnv : (v₁.map Prod.fst).Nodup) :
    missingDependencies ⟨d₁, v₁⟩ = missingDependencies ⟨d₂, v₂⟩ := by
  unfold missingDependencies
  apply List.filter_congr
  intro dep _
  have e1 : depLookup d₁ dep = depLookup d₂ dep :=
    depLookup_perm d₁ d₂ hd hnd dep
  have e2 : depLookup v₁ dep = depLookup v₂ dep :=
    depLookup_perm v₁ v₂ hv hnv dep
  simp only [e1, e2]

theorem missingDependencies_order_invariant_witness :
    missingDependencies ⟨[("clsx", "1"), ("tw-merge", "2")], [("framer-motion", "3")]⟩ =
      missingDependencies ⟨[("tw-merge", "2"), ("clsx", "1")], [("framer-motion", "3")]⟩ :=
  missingDependencies_order_invariant _ _ _ _ (by decide) (by decide)
    (by decide) (by decide)

/-- Claim C9 counterexample: the fetched URL is not of the form
`fixed base ++ component name ++ fixed suffix` — the component name is
interpolated twice, so no single fixed base/suffix pair works for names
of different lengths. -/
theorem componentUrl_not_base_name_suffix :
    ¬ ∃ B S : String, ∀ c : String, componentUrl c = B ++ c ++ S := by
  rintro ⟨B, S, h⟩
  have h0 := congrArg String.length (h "")
  have h1 := congrArg String.length (h "x")
  rw [String.length_append, String.length_append] at h0 h1
  have hc : (componentUrl "x").length = (componentUrl "").length + 2 := by decide
  have he : ("" : String).length = 0 := rfl
  have hx : ("x" : String).length = 1 := rfl
  rw [he] at h0
  rw [hx] at h1
  omega

/-- Claim C9 (amended): the URL fetched by `add` is the fixed base
address followed by the component name, a slash, the component name
again, and the fixed `.tsx` suffix; and when the destination does not
already exist, exactly one HTTP GET (to exactly that URL) is issued per
invocation — zero when the existence check fails. -/
theorem componentUrl_shape_and_single_get (env : Env) (fs : FS) (c : String) :
    componentUrl c =
      "https://raw.githubusercontent.com/Vedant-Panchal/FlaminUI/refs/heads/main/lib/components/"
        ++ c ++ "/" ++ c ++ ".tsx" ∧
    (fsExists fs (componentPath c) = false →
      (addCommand env fs c).events.filter isHttpGet =
        [.httpGet (componentUrl c)]) ∧
    (fsExists fs (componentPath c) = true →
      (addCommand env fs c).events.filter isHttpGet = []) := by
  refine ⟨rfl, ?_, ?_⟩
  · intro h
    cases hh : env.http (componentUrl c) with
    | none => simp [addCommand, h, hh, isHttpGet]
    | some b => simp [addCommand, h, hh, isHttpGet]
  · intro h
    simp [addCommand, h]

theorem componentUrl_shape_and_single_get_witness :
    componentUrl "button" =
      "https://raw.githubusercontent.com/Vedant-Panchal/FlaminUI/refs/heads/main/lib/components/"
        ++ "button" ++ "/" ++ "button" ++ ".tsx" ∧
    (addCommand sampleEnv [] "button").events.filter isHttpGet =
      [.httpGet (componentUrl "button")] :=
  ⟨(componentUrl_shape_and_single_get sampleEnv [] "button").1,
    (componentUrl_shape_and_single_get sampleEnv [] "button").2.1 rfl⟩

/-- A project filesystem holding a manifest and a locally edited
`tailwind.config.ts`, but neither `lib/util.ts` nor `utils/cn.ts`. -/
def tailwindFS : FS := [("package.json", "pkg"), ("tailwind.config.ts", "old")]

/-- Claim C1 counterexample: running `init` (with every required
dependency already declared) over a project whose `tailwind.config.ts`
already exists issues no overwrite prompt at all, yet rewrites
`tailwind.config.ts` with the fixed content — the per-artifact overwrite
confirmation does not cover the style-framework config. -/
theorem tailwind_overwritten_without_prompting :
    fsExists tailwindFS "tailwind.config.ts" = true ∧
    (initCommand sampleEnv tailwindFS).events.filter isPrompt = [] ∧
    Event.writeFile "tailwind.config.ts" tailwindConfigContent ∈
      (initCommand sampleEnv tailwindFS).events ∧
    fsLookup (initCommand sampleEnv tailwindFS).fs "tailwind.config.ts" =
      some tailwindConfigContent := by
  have hrun := initCommand_fresh_eq sampleEnv tailwindFS sampleManifest
    rfl rfl rfl rfl rfl
  refine ⟨rfl, ?_, ?_, ?_⟩
  · rw [hrun]
    rfl
  · rw [hrun]
    simp
  · rw [hrun]
    exact fsLookup_fsWrite_self _ _ _

/-- Claim C1 (amended): of the three configuration artifacts, only
`lib/util.ts` and `utils/cn.ts` get an overwrite confirmation (with
default decline) when they already exist, and declining skips exactly
that artifact while the run continues; `tailwind.config.ts` is always
overwritten with the fixed content, without any prompt. -/
theorem config_overwrite_per_artifact (env : Env) (fs : FS) (pkg : Manifest)
    (h1 : fsExists fs "package.json" = true)
    (h2 : env.parseJson ((fsLookup fs "package.json").getD "") = some pkg)
    (h3 : missingDependencies pkg = [])
    (hu : fsExists fs "lib/util.ts" = true)
    (hau : (env.answer utilOverwriteMessage).getD false = false)
    (hc : fsExists fs "utils/cn.ts" = true)
    (hac : (env.answer cnOverwriteMessage).getD false = false) :
    (initCommand env fs).outcome = .success ∧
    (initCommand env fs).events =
      [.prompt utilOverwriteMessage, .prompt cnOverwriteMessage,
        .writeFile "tailwind.config.ts" tailwindConfigContent,
        .mkdir "lib/components"] ∧
    fsLookup (initCommand env fs).fs "lib/util.ts" = fsLookup fs "lib/util.ts" ∧
    fsLookup (initCommand env fs).fs "utils/cn.ts" = fsLookup fs "utils/cn.ts" ∧
    fsLookup (initCommand env fs).fs "tailwind.config.ts" =
      some tailwindConfigContent := by
  have hrun := initCommand_skip_eq env fs pkg h1 h2 h3 hu hau hc hac
  refine ⟨by rw [hrun], by rw [hrun], ?_, ?_, ?_⟩
  · rw [hrun]
    exact fsLookup_fsWrite_ne fs _ _ _ (by decide)
  · rw [hrun]
    exact fsLookup_fsWrite_ne fs _ _ _ (by decide)
  · rw [hrun]
    exact fsLookup_fsWrite_self fs _ _

/-- A project filesystem holding the manifest and all three generated
artifacts. -/
def fullFS : FS :=
  [("package.json", "pkg"), ("lib/util.ts", "u0"),
    ("utils/cn.ts", "c0"), ("tailwind.config.ts", "t0")]

theorem config_overwrite_per_artifact_witness :
    (initCommand sampleEnv fullFS).outcome = .success ∧
    (initCommand sampleEnv fullFS).events =
      [.prompt utilOverwriteMessage, .prompt cnOverwriteMessage,
        .writeFile "tailwind.config.ts" tailwindConfigContent,
        .mkdir "lib/components"] ∧
    fsLookup (initCommand sampleEnv fullFS).fs "lib/util.ts" =
      fsLookup fullFS "lib/util.ts" ∧
    fsLookup (initCommand sampleEnv fullFS).fs "utils/cn.ts" =
      fsLookup fullFS "utils/cn.ts" ∧
    fsLookup (initCommand sampleEnv fullFS).fs "tailwind.config.ts" =
      some tailwindConfigContent :=
  config_overwrite_per_artifact sampleEnv fullFS sampleManifest
    rfl rfl rfl rfl rfl rfl rfl

/-- Claim C7: after a successful first `init` run over a project that
had none of the three artifacts (and every required dependency already
declared), a second `init` run that declines every overwrite prompt
leaves the content of each file the first run wrote — `lib/util.ts`,
`utils/cn.ts` and `tailwind.config.ts` — byte-identical to the first
run's output. -/
theorem init_rerun_decline_byte_identical (env₁ env₂ : Env) (fs : FS)
    (pkg₁ pkg₂ : Manifest)
    (h1 : fsExists fs "package.json" = true)
    (h2 : env₁.parseJson ((fsLookup fs "package.json").getD "") = some pkg₁)
    (h3 : missingDependencies pkg₁ = [])
    (hu : fsExists fs "lib/util.ts" = false)
    (hc : fsExists fs "utils/cn.ts" = false)
    (h2b : env₂.parseJson ((fsLookup fs "package.json").getD "") = some pkg₂)
    (h3b : missingDependencies pkg₂ = [])
    (hau : (env₂.answer utilOverwriteMessage).getD false = false)
    (hac : (env₂.answer cnOverwriteMessage).getD false = false) :
    (initCommand env₁ fs).outcome = .success ∧
    ∀ p ∈ (["lib/util.ts", "utils/cn.ts", "tailwind.config.ts"] : List String),
      fsLookup (initCommand env₂ (initCommand env₁ fs).fs).fs p =
        fsLookup (initCommand env₁ fs).fs p := by
  have hrun1 := initCommand_fresh_eq env₁ fs pkg₁ h1 h2 h3 hu hc
  have hfs1 : (initCommand env₁ fs).fs =
      fsWrite (fsWrite (fsWrite fs "lib/util.ts" env₁.utilSrc)
        "utils/cn.ts" env₁.cnSrc) "tailwind.config.ts" tailwindConfigContent := by
    rw [hrun1]
  have hpj : fsLookup (initCommand env₁ fs).fs "package.json" =
      fsLookup fs "package.json" := by
    rw [hfs1, fsLookup_fsWrite_ne _ _ _ _ (by decide),
      fsLookup_fsWrite_ne _ _ _ _ (by decide),
      fsLookup_fsWrite_ne _ _ _ _ (by decide)]
  have h1' : fsExists (initCommand env₁ fs).fs "package.json" = true := by
    rw [fsExists, hpj]
    exact h1
  have h2' : env₂.parseJson
      ((fsLookup (initCommand env₁ fs).fs "package.json").getD "") = some pkg₂ := by
    rw [hpj]
    exact h2b
  have hu' : fsExists (initCommand env₁ fs).fs "lib/util.ts" = true := by
    rw [fsExists, hfs1, fsLookup_fsWrite_ne _ _ _ _ (by decide),
      fsLookup_fsWrite_ne _ _ _ _ (by decide), fsLookup_fsWrite_self]
    rfl
  have hc' : fsExists (initCommand env₁ fs).fs "utils/cn.ts" = true := by
    rw [fsExists, hfs1, fsLookup_fsWrite_ne _ _ _ _ (by decide),
      fsLookup_fsWrite_self]
    rfl
  have hrun2 := initCommand_skip_eq env₂ (initCommand env₁ fs).fs pkg₂
    h1' h2' h3b hu' hau hc' hac
  have hfs2 : (initCommand env₂ (initCommand env₁ fs).fs).fs =
      fsWrite (initCommand env₁ fs).fs "tailwind.config.ts" tailwindConfigContent := by
    rw [hrun2]
  refine ⟨by rw [hrun1], ?_⟩
  intro p hp
  simp only [List.mem_cons, List.not_mem_nil, or_false] at hp
  rcases hp with hp | hp | hp
  · rw [hp, hfs2, fsLookup_fsWrite_ne _ _ _ _ (by decide)]
  · rw [hp, hfs2, fsLookup_fsWrite_ne _ _ _ _ (by decide)]
  · rw [hp, hfs2, fsLookup_fsWrite_self, hfs1, fsLookup_fsWrite_self]

theorem init_rerun_decline_byte_identical_witness :
    (initCommand sampleEnv [("package.json", "pkg")]).outcome = .success ∧
    ∀ p ∈ (["lib/util.ts", "utils/cn.ts", "tailwind.config.ts"] : List String),
      fsLookup (initCommand sampleEnv
          (initCommand sampleEnv [("package.json", "pkg")]).fs).fs p =
        fsLookup (initCommand sampleEnv [("package.json", "pkg")]).fs p :=
  init_rerun_decline_byte_identical sampleEnv sampleEnv
    [("package.json", "pkg")] sampleManifest sampleManifest
    rfl rfl rfl rfl rfl rfl rfl rfl rfl

end FlaminUI
